import Mathlib

/-!
Shallow embedding of the weather-aggregator core (Go) and proofs about it.

Source layout:
* `internal/services/aggregator.go` — aggregation engine, coordinator, cache
* `pkg/client/base_client.go` — resilient fetcher (retry/backoff) and circuit
  breaker configuration

Machine reals (Go `float64`) are embedded as `ℚ`; `time.Time` instants and
`time.Duration` values as `Nat`/`ℚ` tick counts.  Go maps are embedded as
association lists in iteration order (Go map iteration order is unspecified;
all properties proved below are order-independent or stated per-membership).
-/

namespace WeatherAgg

/-! ### Association-list operations standing in for Go maps -/

def alistLookup {κ ν : Type} [DecidableEq κ] : List (κ × ν) → κ → Option ν
  | [], _ => none
  | (k1, v) :: rest, k => if k1 = k then some v else alistLookup rest k

def alistInsert {κ ν : Type} [DecidableEq κ] (l : List (κ × ν)) (k : κ) (v : ν) :
    List (κ × ν) :=
  l.filter (fun p => p.1 ≠ k) ++ [(k, v)]

def alistErase {κ ν : Type} [DecidableEq κ] (l : List (κ × ν)) (k : κ) :
    List (κ × ν) :=
  l.filter (fun p => p.1 ≠ k)

def alistModify {κ ν : Type} [DecidableEq κ] (l : List (κ × ν)) (k : κ) (g : ν → ν) :
    List (κ × ν) :=
  l.map (fun p => if p.1 = k then (p.1, g p.2) else p)

/-! ### Data model (internal/models) -/

/-- One provider's current-weather observation (models.CurrentWeather). -/
structure CurrentWeather where
  city : String
  temperature : ℚ
  feelsLike : ℚ
  humidity : ℚ
  pressure : ℚ
  windSpeed : ℚ
  windDegree : ℚ
  description : String
  icon : String
  timestamp : Nat
  source : String
deriving DecidableEq

/-- One provider's daily forecast slice (models.ForecastDay). -/
structure ForecastDay where
  date : Nat
  maxTemp : ℚ
  minTemp : ℚ
  avgTemp : ℚ
  humidity : ℚ
  description : String
  icon : String
  precipitation : ℚ
deriving DecidableEq

/-- One provider's multi-day forecast (models.WeatherForecast). -/
structure WeatherForecast where
  city : String
  forecast : List ForecastDay
  source : String
deriving DecidableEq

/-- Per-city snapshot collected during one fetch cycle (models.WeatherData).
The Go maps `Current`/`Forecasts` are association lists keyed by source. -/
structure WeatherData where
  city : String
  current : List (String × CurrentWeather)
  forecasts : List (String × WeatherForecast)
deriving DecidableEq

/-- Merged current-weather record (models.AggregatedCurrentWeather). -/
structure AggregatedCurrentWeather where
  city : String
  temperature : ℚ
  feelsLike : ℚ
  humidity : ℚ
  pressure : ℚ
  windSpeed : ℚ
  description : String
  icon : String
  lastUpdated : Nat
  sources : List String
  confidence : ℚ
deriving DecidableEq

/-- Merged forecast record (models.AggregatedForecast). -/
structure AggregatedForecast where
  city : String
  days : List ForecastDay
  lastUpdated : Nat
  sources : List String
deriving DecidableEq

/-! ### Aggregation engine (internal/services/aggregator.go) -/

/-- `mostCommonString` from aggregator.go: count occurrences, pick the string
with the strictly largest count (first seen wins ties). -/
def countOccurrences (strs : List String) (s : String) : Nat :=
  (strs.filter (fun x => x = s)).length

def mostCommonString (strs : List String) : String :=
  (strs.dedup.foldl
    (fun acc s =>
      if countOccurrences strs s > acc.2 then (s, countOccurrences strs s) else acc)
    ("", 0)).1

/-- `calculateConfidence` from aggregator.go (lines 452-497): 0.5 for at most
one source, otherwise 1 − clamped normalized population variance of the
temperatures plus a 0.1·(n−1) source bonus, clamped to [0,1]. -/
def calculateConfidence (currentWeather : List (String × CurrentWeather)) : ℚ :=
  if currentWeather.length ≤ 1 then 1/2
  else
    let temps := currentWeather.map (fun p => p.2.temperature)
    let meanTotal := temps.foldl (fun acc t => acc + t) 0
    let mean := meanTotal / (temps.length : ℚ)
    let varTotal := temps.foldl (fun acc t => acc + (t - mean) * (t - mean)) 0
    let variance := varTotal / (temps.length : ℚ)
    let normalizedVariance := variance / 25
    let normalizedVariance1 := if normalizedVariance > 1 then 1 else normalizedVariance
    let confidence := 1 - normalizedVariance1
    let sourceBoost := ((currentWeather.length : ℚ) - 1) * (1/10)
    let confidence1 := confidence + sourceBoost
    let confidence2 := if confidence1 > 1 then (1 : ℚ) else confidence1
    if confidence2 < 0 then 0 else confidence2

/-- Population variance as the spec words it (sum of squared deviations from
the mean, divided by the count). -/
def populationVariance (temps : List ℚ) : ℚ :=
  let mean := temps.sum / (temps.length : ℚ)
  ((temps.map (fun t => (t - mean) * (t - mean))).sum) / (temps.length : ℚ)

/-- The confidence formula exactly as the spec words it, for ≥ 2 sources:
clamp(1 − min(variance/25, 1) + 0.1·(n−1)) to [0,1]. -/
def specConfidenceFormula (temps : List ℚ) : ℚ :=
  max 0 (min 1 (1 - min (populationVariance temps / 25) 1
    + ((temps.length : ℚ) - 1) * (1/10)))

/-- `aggregateCurrentWeather` from aggregator.go (lines 231-283). -/
def aggregateCurrentWeather (data : WeatherData) : Option AggregatedCurrentWeather :=
  if data.current.length = 0 then none
  else
    let totalTemp := data.current.foldl (fun acc p => acc + p.2.temperature) 0
    let totalFeelsLike := data.current.foldl (fun acc p => acc + p.2.feelsLike) 0
    let totalHumidity := data.current.foldl (fun acc p => acc + p.2.humidity) 0
    let totalPressure := data.current.foldl (fun acc p => acc + p.2.pressure) 0
    let totalWindSpeed := data.current.foldl (fun acc p => acc + p.2.windSpeed) 0
    let descriptions := data.current.map (fun p => p.2.description)
    let sources := data.current.map (fun p => p.1)
    let latestTimestamp := data.current.foldl
      (fun acc p => if acc < p.2.timestamp then p.2.timestamp else acc) 0
    let count : ℚ := (data.current.length : ℚ)
    let confidence := calculateConfidence data.current
    let description := mostCommonString descriptions
    let icon := match data.current.head? with
      | none => ""
      | some p => p.2.icon
    some {
      city := data.city
      temperature := totalTemp / count
      feelsLike := totalFeelsLike / count
      humidity := totalHumidity / count
      pressure := totalPressure / count
      windSpeed := totalWindSpeed / count
      description := description
      icon := icon
      lastUpdated := latestTimestamp
      sources := sources
      confidence := confidence }

/-- Zero value of models.ForecastDay (the Go zero struct left in place when a
day index receives no contribution; unreachable after truncation). -/
def zeroForecastDay : ForecastDay :=
  { date := 0, maxTemp := 0, minTemp := 0, avgTemp := 0, humidity := 0
    description := "", icon := "", precipitation := 0 }

/-- Inner per-day merge loop of `aggregateForecast` (lines 308-344): average
the numeric fields over the entries present at this day index, mode of the
descriptions, icon from the first source, date from the last iterated entry. -/
def aggregateDayEntries (allForecasts : List (List ForecastDay)) (day : Nat) :
    ForecastDay :=
  let entries := allForecasts.filterMap (fun f => f.get? day)
  if entries.length = 0 then zeroForecastDay
  else
    let n : ℚ := (entries.length : ℚ)
    { date := ((entries.getLast?).map (fun e => e.date)).getD 0
      maxTemp := (entries.map (fun e => e.maxTemp)).sum / n
      minTemp := (entries.map (fun e => e.minTemp)).sum / n
      avgTemp := (entries.map (fun e => e.avgTemp)).sum / n
      humidity := (entries.map (fun e => e.humidity)).sum / n
      description := mostCommonString (entries.map (fun e => e.description))
      icon := (((allForecasts.headD []).get? day).map (fun e => e.icon)).getD ""
      precipitation := (entries.map (fun e => e.precipitation)).sum / n }

/-- `aggregateForecast` from aggregator.go (lines 285-352): only providers with
at least `days` entries contribute, each truncated to its first `days`
entries; absent if no provider qualifies. `now` stands for the `time.Now()`
read into `LastUpdated`. -/
def aggregateForecast (data : WeatherData) (days : Nat) (now : Nat) :
    Option AggregatedForecast :=
  if data.forecasts.length = 0 then none
  else
    let contributors := data.forecasts.filter
      (fun p => days ≤ p.2.forecast.length)
    let allForecasts := contributors.map (fun p => p.2.forecast.take days)
    let sources := contributors.map (fun p => p.1)
    if allForecasts.length = 0 then none
    else
      some {
        city := data.city
        days := (List.range days).map (fun day => aggregateDayEntries allForecasts day)
        lastUpdated := now
        sources := sources }

/-! ### Coordinator (fetchCityWeather, aggregator.go lines 131-207) -/

/-- One source's reply during the per-city fan-out (models.APIResponse):
`current`/`forecastResp` are `none` when that call failed. -/
structure APIResponse where
  source : String
  current : Option CurrentWeather
  forecastResp : Option WeatherForecast
deriving DecidableEq

/-- Body of the response-collection loop of `fetchCityWeather` (lines
185-193): store a non-nil current reading and a non-nil forecast into the
per-city snapshot maps. -/
def collectStep (wd : WeatherData) (r : APIResponse) : WeatherData :=
  let wd1 := match r.current with
    | some cw => { wd with current := alistInsert wd.current r.source cw }
    | none => wd
  match r.forecastResp with
  | some f => { wd1 with forecasts := alistInsert wd1.forecasts r.source f }
  | none => wd1

/-- Response-collection loop of `fetchCityWeather` (lines 177-193). -/
def collectResponses (city : String) (responses : List APIResponse) : WeatherData :=
  responses.foldl collectStep { city := city, current := [], forecasts := [] }

/-- `successCount` of the collection loop: one increment per response with a
non-nil current reading. -/
def successCount (responses : List APIResponse) : Nat :=
  (responses.filter (fun r => r.current.isSome)).length

/-- `fetchCityWeather` (lines 131-207): fail when zero sources returned a
current reading, otherwise store the snapshot and run aggregation (the
`aggregateAndCache` step, whose consensus record is returned alongside). -/
def fetchCityWeather (city : String) (responses : List APIResponse) :
    Except String (WeatherData × Option AggregatedCurrentWeather) :=
  let weatherData := collectResponses city responses
  if successCount responses = 0 then
    Except.error ("all API calls failed for city " ++ city)
  else
    Except.ok (weatherData, aggregateCurrentWeather weatherData)

/-! ### Cache (WeatherCache, aggregator.go lines 525-755) -/

/-- CacheItem: payload plus expiry instant. -/
structure CacheItem (α : Type) where
  data : α
  expiresAt : Nat
deriving DecidableEq

/-- WeatherCache: current-weather store keyed by city, forecast store keyed by
city then day-count (`map[string]map[int]CacheItem`). -/
structure WeatherCache where
  currentWeather : List (String × CacheItem AggregatedCurrentWeather)
  forecast : List (String × List (Int × CacheItem AggregatedForecast))
  defaultDuration : Nat
  maxSize : Nat
deriving DecidableEq

/-- `NewWeatherCache`: both stores start empty. -/
def newWeatherCache (defaultDuration : Nat) (maxSize : Nat) : WeatherCache :=
  { currentWeather := [], forecast := [], defaultDuration := defaultDuration
    maxSize := maxSize }

/-- Combined occupancy of both stores, as totalled inside `SetForecast`
(lines 604-608). -/
def combinedOccupancy (c : WeatherCache) : Nat :=
  c.currentWeather.length + (c.forecast.map (fun p => p.2.length)).sum

/-- Loop body of the victim scan of `evictOldestCurrent` (lines 655-660):
keep the first entry seen, then any strictly earlier expiry; the
empty-string sentinel key marks "nothing picked yet". -/
def evictStepCurrent (a : String × Nat)
    (p : String × CacheItem AggregatedCurrentWeather) : String × Nat :=
  if a.1 = "" ∨ p.2.expiresAt < a.2 then (p.1, p.2.expiresAt) else a

/-- Victim scan of `evictOldestCurrent` (lines 651-660). -/
def evictPickCurrent (c : WeatherCache) : String × Nat :=
  c.currentWeather.foldl evictStepCurrent ("", 0)

/-- `evictOldestCurrent` (lines 651-667). -/
def evictOldestCurrent (c : WeatherCache) : WeatherCache :=
  let pick := evictPickCurrent c
  if pick.1 ≠ "" then
    { c with currentWeather := alistErase c.currentWeather pick.1 }
  else c

/-- `SetCurrentWeather` (lines 557-574): evict from the current-weather store
when it alone is at or above `maxSize`, then insert with expiry
now + defaultDuration. -/
def setCurrentWeather (c : WeatherCache) (now : Nat) (city : String)
    (w : AggregatedCurrentWeather) : WeatherCache :=
  let c1 := if c.currentWeather.length ≥ c.maxSize then evictOldestCurrent c else c
  { c1 with currentWeather :=
      alistInsert c1.currentWeather city ⟨w, now + c1.defaultDuration⟩ }

/-- `GetCurrentWeather` (lines 576-594): lazy expiry — a read past the expiry
instant deletes the entry and reports absent. -/
def getCurrentWeather (c : WeatherCache) (now : Nat) (city : String) :
    Option AggregatedCurrentWeather × WeatherCache :=
  match alistLookup c.currentWeather city with
  | none => (none, c)
  | some item =>
    if item.expiresAt < now then
      (none, { c with currentWeather := alistErase c.currentWeather city })
    else
      (some item.data, c)

/-- Victim scan of `evictOldestForecast` (lines 669-682): nested fold over
city → day-count entries; accumulator is (city, day-count, expiry). -/
def evictPickForecast (c : WeatherCache) : String × Int × Nat :=
  c.forecast.foldl
    (fun acc p =>
      p.2.foldl
        (fun acc2 q =>
          if acc2.1 = "" ∨ q.2.expiresAt < acc2.2.2 then (p.1, q.1, q.2.expiresAt)
          else acc2)
        acc)
    ("", 0, 0)

/-- `evictOldestForecast` (lines 669-690): delete the picked day-count entry
from the picked city's inner map (the city key itself stays). -/
def evictOldestForecast (c : WeatherCache) : WeatherCache :=
  let pick := evictPickForecast c
  if pick.1 ≠ "" then
    { c with forecast :=
        alistModify c.forecast pick.1 (fun inner => alistErase inner pick.2.1) }
  else c

/-- `SetForecast` (lines 596-623): ensure the city's inner map exists, evict
from the forecast store when the combined occupancy of both stores is at or
above `maxSize`, then insert. -/
def setForecast (c : WeatherCache) (now : Nat) (city : String) (days : Int)
    (f : AggregatedForecast) : WeatherCache :=
  let c1 := if alistLookup c.forecast city = none
    then { c with forecast := alistInsert c.forecast city [] } else c
  let totalItems := combinedOccupancy c1
  let c2 := if totalItems ≥ c1.maxSize then evictOldestForecast c1 else c1
  { c2 with forecast :=
      (alistModify c2.forecast city
        (fun inner => alistInsert inner days ⟨f, now + c2.defaultDuration⟩)) }

/-- `GetForecast` (lines 625-649): same lazy expiry for the (city, day-count)
keyed store. -/
def getForecast (c : WeatherCache) (now : Nat) (city : String) (days : Int) :
    Option AggregatedForecast × WeatherCache :=
  match alistLookup c.forecast city with
  | none => (none, c)
  | some cityForecasts =>
    match alistLookup cityForecasts days with
    | none => (none, c)
    | some item =>
      if item.expiresAt < now then
        (none, { c with forecast :=
            (alistModify c.forecast city (fun inner => alistErase inner days)) })
      else
        (some item.data, c)

/-- `GetAggregatedForecast` (aggregator.go lines 382-417), with the fetch
cycle abstracted as an oracle `fetch` (`FetchWeatherData`): `none` models a
failed cycle, `some c2` the cache state it produced.  The returned `Bool`
records whether a fetch cycle was triggered. -/
def getAggregatedForecast (fetch : WeatherCache → Option WeatherCache)
    (c : WeatherCache) (now : Nat) (city : String) (days : Int) :
    Except String AggregatedForecast × WeatherCache × Bool :=
  if days < 1 ∨ days > 7 then
    (Except.error "days must be between 1 and 7", c, false)
  else
    match getForecast c now city days with
    | (some cached, c1) => (Except.ok cached, c1, false)
    | (none, c1) =>
      match fetch c1 with
      | none => (Except.error ("failed to fetch forecast for " ++ city), c1, true)
      | some c2 =>
        match getForecast c2 now city days with
        | (some cached, c3) => (Except.ok cached, c3, true)
        | (none, c3) =>
          (Except.error ("forecast data not available for " ++ city), c3, true)

/-! ### Resilient fetcher (pkg/client/base_client.go, doGetWithRetry) -/

/-- What one attempt observes: request construction failure
(`http.NewRequestWithContext` error), transport failure (`client.Do` error),
or an HTTP response; for a 2xx response `body = none` models an
`io.ReadAll` failure.  Bodies are opaque `Nat` payload identifiers. -/
inductive AttemptOutcome where
  | createFailed
  | transportError
  | response (status : Nat) (body : Option Nat)
deriving DecidableEq

/-- The `lastErr` value tracked across attempts. -/
inductive LastErr where
  | transport
  | readFailed
  | httpStatus (status : Nat)
deriving DecidableEq

/-- Failure results of `doGetWithRetry`. -/
inductive FetchFailure where
  | cancelled
  | createRequestFailed
  | maxRetriesExceeded (last : Option LastErr)
deriving DecidableEq

/-- Retry configuration (ClientConfig fields used by doGetWithRetry). -/
structure RetryConfig where
  maxRetries : Nat
  retryDelay : ℚ
  multiplier : ℚ
deriving DecidableEq

/-- Result of a run: outcome, the list of completed backoff waits in order,
and the number of attempts that reached the request step. -/
structure RunResult where
  result : Except FetchFailure Nat
  waits : List ℚ
  attempts : Nat

/-- Backoff before retry `attempt` (line 93):
`retryDelay * multiplier^(attempt-1)`. -/
def backoffDelay (cfg : RetryConfig) (attempt : Nat) : ℚ :=
  cfg.retryDelay * cfg.multiplier ^ (attempt - 1)

/-- The `select` on line 99-103: the context "done" channel wins the backoff
wait exactly when the cancellation instant falls strictly inside the wait
interval. -/
def cancelledDuring (cancelAt : Option ℚ) (elapsed delay : ℚ) : Bool :=
  match cancelAt with
  | none => false
  | some t => decide (t < elapsed + delay)

/-- Loop body of `doGetWithRetry` (lines 90-145), fuelled by the remaining
iterations of `for attempt := 0; attempt <= maxRetries; attempt++`.
`oracle k` is what attempt `k` observes. -/
def retryLoop (cfg : RetryConfig) (oracle : Nat → AttemptOutcome)
    (cancelAt : Option ℚ) :
    Nat → Nat → ℚ → Option LastErr → List ℚ → RunResult
  | 0, attempt, _, lastErr, waits =>
    ⟨Except.error (FetchFailure.maxRetriesExceeded lastErr), waits, attempt⟩
  | fuel + 1, attempt, elapsed, _lastErr, waits =>
    let delay := backoffDelay cfg attempt
    if 0 < attempt ∧ cancelledDuring cancelAt elapsed delay then
      ⟨Except.error FetchFailure.cancelled, waits, attempt⟩
    else
      let elapsed1 := if 0 < attempt then elapsed + delay else elapsed
      let waits1 := if 0 < attempt then waits ++ [delay] else waits
      match oracle attempt with
      | AttemptOutcome.createFailed =>
        ⟨Except.error FetchFailure.createRequestFailed, waits1, attempt + 1⟩
      | AttemptOutcome.transportError =>
        retryLoop cfg oracle cancelAt fuel (attempt + 1) elapsed1
          (some LastErr.transport) waits1
      | AttemptOutcome.response status body =>
        if 200 ≤ status ∧ status < 300 then
          match body with
          | some b => ⟨Except.ok b, waits1, attempt + 1⟩
          | none =>
            retryLoop cfg oracle cancelAt fuel (attempt + 1) elapsed1
              (some LastErr.readFailed) waits1
        else
          if 400 ≤ status ∧ status < 500 ∧ status ≠ 429 then
            ⟨Except.error (FetchFailure.maxRetriesExceeded
              (some (LastErr.httpStatus status))), waits1, attempt + 1⟩
          else
            retryLoop cfg oracle cancelAt fuel (attempt + 1) elapsed1
              (some (LastErr.httpStatus status)) waits1

/-- `doGetWithRetry` (lines 87-147). -/
def doGetWithRetry (cfg : RetryConfig) (oracle : Nat → AttemptOutcome)
    (cancelAt : Option ℚ) : RunResult :=
  retryLoop cfg oracle cancelAt (cfg.maxRetries + 1) 0 0 none []

/-- Spec-side classification: the outcomes the spec calls retryable
(transport errors, 429, 5xx). -/
def specRetryable (o : AttemptOutcome) : Bool :=
  match o with
  | AttemptOutcome.transportError => true
  | AttemptOutcome.response status _ => status = 429 ∨ (500 ≤ status ∧ status < 600)
  | AttemptOutcome.createFailed => false

/-! ### Circuit breaker

The trip predicate is embedded from `NewBaseClient` (base_client.go lines
43-58).  The transition machinery itself lives in the third-party
`github.com/sony/gobreaker` dependency, whose source is not part of this
repository; it is modelled from the spec below. -/

/-- gobreaker.Counts fields consulted by the trip predicate. -/
structure BreakerCounts where
  requests : Nat
  totalFailures : Nat
deriving DecidableEq

/-- `ReadyToTrip` from NewBaseClient (lines 48-51): requests ≥ 3 and
failure fraction ≥ 0.6; `failures/requests ≥ 0.6` is written as
`3·requests ≤ 5·failures` (exact over the integer counts involved). -/
def readyToTrip (c : BreakerCounts) : Bool :=
  3 ≤ c.requests ∧ 3 * c.requests ≤ 5 * c.totalFailures

inductive BreakerState where
  | closed
  | opened
  | halfOpen
deriving DecidableEq

/-- Modelled from the spec: the gobreaker per-source breaker state (the
gobreaker package is a dependency, not part of this repository) — state,
rolling counts, the instant at which an open breaker starts admitting a
probe, and whether the single half-open probe slot (MaxRequests = 1) is
taken. -/
structure Breaker where
  state : BreakerState
  counts : BreakerCounts
  expiry : ℚ
  probeInFlight : Bool
deriving DecidableEq

/-- Modelled from the spec: admission decision before a call (gobreaker's
beforeRequest, absent from this repository). `none` means the call is
rejected with a "breaker open" failure; closed admits and counts the
request; open rejects until `expiry`, then moves to half-open admitting the
caller as the single probe; half-open admits only while the probe slot is
free. -/
def breakerBeforeCall (b : Breaker) (now : ℚ) : Option Breaker :=
  match b.state with
  | BreakerState.closed =>
    some { b with counts := ⟨b.counts.requests + 1, b.counts.totalFailures⟩ }
  | BreakerState.opened =>
    if now < b.expiry then none
    else some { b with state := BreakerState.halfOpen, counts := ⟨1, 0⟩
                       probeInFlight := true }
  | BreakerState.halfOpen =>
    if b.probeInFlight then none
    else some { b with probeInFlight := true
                       counts := ⟨b.counts.requests + 1, b.counts.totalFailures⟩ }

/-- Modelled from the spec: result bookkeeping after an admitted call
(gobreaker's afterRequest, absent from this repository). In the closed
state a failure is counted and the breaker trips exactly when `readyToTrip`
holds on the updated counts; a half-open probe success closes the breaker,
a probe failure reopens it with a restarted timer. -/
def breakerAfterCall (timeout : ℚ) (b : Breaker) (now : ℚ) (success : Bool) :
    Breaker :=
  match b.state with
  | BreakerState.closed =>
    let counts : BreakerCounts :=
      ⟨b.counts.requests, b.counts.totalFailures + (if success then 0 else 1)⟩
    if readyToTrip counts then
      { state := BreakerState.opened, counts := ⟨0, 0⟩, expiry := now + timeout
        probeInFlight := false }
    else { b with counts := counts }
  | BreakerState.halfOpen =>
    if success then
      { state := BreakerState.closed, counts := ⟨0, 0⟩, expiry := 0
        probeInFlight := false }
    else
      { state := BreakerState.opened, counts := ⟨0, 0⟩, expiry := now + timeout
        probeInFlight := false }
  | BreakerState.opened => b

/-! ### Helper lemmas -/

theorem foldl_add_id (init : ℚ) (l : List ℚ) :
    l.foldl (fun acc t => acc + t) init = init + l.sum := by
  induction l generalizing init with
  | nil => simp
  | cons x xs ih => simp [ih, add_assoc]

theorem foldl_add_sq (m : ℚ) (init : ℚ) (l : List ℚ) :
    l.foldl (fun acc t => acc + (t - m) * (t - m)) init
      = init + (l.map (fun t => (t - m) * (t - m))).sum := by
  induction l generalizing init with
  | nil => simp
  | cons x xs ih => simp [ih, add_assoc]

theorem if_gt_one_eq_min (x : ℚ) : (if x > 1 then (1 : ℚ) else x) = min 1 x := by
  split_ifs with h
  · exact (min_eq_left h.le).symm
  · exact (min_eq_right (not_lt.mp h)).symm

theorem if_lt_zero_eq_max (x : ℚ) : (if x < 0 then (0 : ℚ) else x) = max 0 x := by
  split_ifs with h
  · exact (max_eq_left h.le).symm
  · exact (max_eq_right (not_lt.mp h)).symm

/-- A current-weather reading carrying only a temperature, for concrete
inputs. -/
def sampleReading (t : ℚ) : CurrentWeather :=
  { city := "", temperature := t, feelsLike := 0, humidity := 0, pressure := 0
    windSpeed := 0, windDegree := 0, description := "", icon := ""
    timestamp := 0, source := "" }

/-! ### C1 — confidence score -/

/-- C1: for every non-empty reading map, `calculateConfidence` returns 0.5
for a single contributor; for ≥ 2 contributors it equals the spec formula
clamp(1 − min(populationVariance/25, 1) + 0.1·(n−1)) to [0,1]; for the two
temperatures 10 and 20 it returns 0.1; and the result always lies in
[0,1]. -/
theorem confidence_matches_spec (cw : List (String × CurrentWeather))
    (_hne : cw ≠ []) :
    (cw.length = 1 → calculateConfidence cw = 1/2) ∧
    (2 ≤ cw.length →
      calculateConfidence cw
        = specConfidenceFormula (cw.map (fun p => p.2.temperature))) ∧
    calculateConfidence [("a", sampleReading 10), ("b", sampleReading 20)] = 1/10 ∧
    0 ≤ calculateConfidence cw ∧ calculateConfidence cw ≤ 1 := by
  have hform : ∀ l : List (String × CurrentWeather), 2 ≤ l.length →
      calculateConfidence l
        = specConfidenceFormula (l.map (fun p => p.2.temperature)) := by
    intro l hl
    have hlen : ¬ l.length ≤ 1 := by omega
    unfold calculateConfidence specConfidenceFormula populationVariance
    rw [if_neg hlen]
    simp only [foldl_add_id, foldl_add_sq, zero_add, if_gt_one_eq_min,
      if_lt_zero_eq_max, List.length_map]
    simp [min_comm]
  refine ⟨?_, hform cw, by norm_num [calculateConfidence, sampleReading], ?_⟩
  · intro h1
    have hlen : cw.length ≤ 1 := by omega
    unfold calculateConfidence
    rw [if_pos hlen]
  · by_cases hlen : cw.length ≤ 1
    · unfold calculateConfidence
      rw [if_pos hlen]
      norm_num
    · rw [hform cw (by omega)]
      unfold specConfidenceFormula
      constructor
      · exact le_max_left _ _
      · exact max_le (by norm_num) (min_le_left _ _)

/-- Witness for C1 at the concrete two-reading input {10, 20}. -/
theorem confidence_matches_spec_witness :
    calculateConfidence [("a", sampleReading 10), ("b", sampleReading 20)] = 1/10 ∧
    0 ≤ calculateConfidence [("a", sampleReading 10), ("b", sampleReading 20)] := by
  have h := confidence_matches_spec
    [("a", sampleReading 10), ("b", sampleReading 20)] (by simp)
  exact ⟨h.2.2.1, h.2.2.2.1⟩

/-! ### C8 — current-weather merge -/

theorem foldl_add_proj {α : Type} (g : α → ℚ) (init : ℚ) (l : List α) :
    l.foldl (fun acc x => acc + g x) init = init + (l.map g).sum := by
  induction l generalizing init with
  | nil => simp
  | cons x xs ih => simp [ih, add_assoc]

theorem foldl_max_ge_init {α : Type} (f : α → Nat) (a : Nat) (l : List α) :
    a ≤ l.foldl (fun acc x => if acc < f x then f x else acc) a := by
  induction l generalizing a with
  | nil => simp
  | cons x xs ih =>
    simp only [List.foldl_cons]
    refine le_trans ?_ (ih (if a < f x then f x else a))
    split_ifs with h
    · exact h.le
    · exact le_rfl

theorem foldl_max_le_all {α : Type} (f : α → Nat) (a : Nat) (l : List α) :
    ∀ x ∈ l, f x ≤ l.foldl (fun acc y => if acc < f y then f y else acc) a := by
  induction l generalizing a with
  | nil => simp
  | cons z zs ih =>
    intro x hx
    rcases List.mem_cons.mp hx with rfl | hx
    · simp only [List.foldl_cons]
      refine le_trans ?_ (foldl_max_ge_init f _ zs)
      split_ifs with h
      · exact le_rfl
      · exact not_lt.mp h
    · exact ih _ x hx

theorem foldl_max_mem {α : Type} (f : α → Nat) (a : Nat) (l : List α) :
    l.foldl (fun acc y => if acc < f y then f y else acc) a = a
      ∨ l.foldl (fun acc y => if acc < f y then f y else acc) a ∈ l.map f := by
  induction l generalizing a with
  | nil => simp
  | cons z zs ih =>
    simp only [List.foldl_cons, List.map_cons]
    rcases ih (if a < f z then f z else a) with h | h
    · rw [h]
      split_ifs with hz
      · exact Or.inr (List.mem_cons_self _ _)
      · exact Or.inl rfl
    · exact Or.inr (List.mem_cons_of_mem _ h)

theorem foldl_max_zero_mem {α : Type} (f : α → Nat) (l : List α) (hl : l ≠ []) :
    l.foldl (fun acc y => if acc < f y then f y else acc) 0 ∈ l.map f := by
  rcases foldl_max_mem f 0 l with h | h
  · obtain ⟨y, ys, rfl⟩ := List.exists_cons_of_ne_nil hl
    have hy : f y ≤ 0 := by
      have := foldl_max_le_all f 0 (y :: ys) y (List.mem_cons_self _ _)
      omega
    rw [h]
    simp only [List.map_cons, List.mem_cons]
    exact Or.inl (by omega)
  · exact h

/-- C8: for every non-empty reading map, the merged record's numeric fields
are the arithmetic means of the contributing readings' fields, its
last-updated timestamp is the maximum contributing observation timestamp,
and its contributing-source list is exactly the (non-empty) list of
contributors. -/
theorem aggregate_current_means (data : WeatherData) (hne : data.current ≠ []) :
    ∃ agg, aggregateCurrentWeather data = some agg ∧
      agg.temperature
        = (data.current.map (fun p => p.2.temperature)).sum / (data.current.length : ℚ) ∧
      agg.feelsLike
        = (data.current.map (fun p => p.2.feelsLike)).sum / (data.current.length : ℚ) ∧
      agg.humidity
        = (data.current.map (fun p => p.2.humidity)).sum / (data.current.length : ℚ) ∧
      agg.pressure
        = (data.current.map (fun p => p.2.pressure)).sum / (data.current.length : ℚ) ∧
      agg.windSpeed
        = (data.current.map (fun p => p.2.windSpeed)).sum / (data.current.length : ℚ) ∧
      agg.lastUpdated ∈ data.current.map (fun p => p.2.timestamp) ∧
      (∀ p ∈ data.current, p.2.timestamp ≤ agg.lastUpdated) ∧
      agg.sources = data.current.map (fun p => p.1) ∧
      agg.sources ≠ [] := by
  have hlen : ¬ data.current.length = 0 := by
    simpa [List.length_eq_zero] using hne
  unfold aggregateCurrentWeather
  rw [if_neg hlen]
  refine ⟨_, rfl, ?_, ?_, ?_, ?_, ?_, ?_, ?_, ?_, ?_⟩
  · dsimp only
    rw [foldl_add_proj (fun p : String × CurrentWeather => p.2.temperature) 0
      data.current, zero_add]
  · dsimp only
    rw [foldl_add_proj (fun p : String × CurrentWeather => p.2.feelsLike) 0
      data.current, zero_add]
  · dsimp only
    rw [foldl_add_proj (fun p : String × CurrentWeather => p.2.humidity) 0
      data.current, zero_add]
  · dsimp only
    rw [foldl_add_proj (fun p : String × CurrentWeather => p.2.pressure) 0
      data.current, zero_add]
  · dsimp only
    rw [foldl_add_proj (fun p : String × CurrentWeather => p.2.windSpeed) 0
      data.current, zero_add]
  · exact foldl_max_zero_mem (fun p => p.2.timestamp) data.current hne
  · intro p hp
    exact foldl_max_le_all (fun q => q.2.timestamp) 0 data.current p hp
  · rfl
  · simpa [List.map_eq_nil_iff] using hne

/-- Witness for C8 at a concrete two-reading snapshot. -/
theorem aggregate_current_means_witness :
    ∃ agg,
      aggregateCurrentWeather
        { city := "c", current := [("a", sampleReading 10), ("b", sampleReading 20)]
          forecasts := [] } = some agg ∧
      agg.temperature = 15 := by
  obtain ⟨agg, hsome, htemp, -⟩ := aggregate_current_means
    { city := "c", current := [("a", sampleReading 10), ("b", sampleReading 20)]
      forecasts := [] } (by simp)
  refine ⟨agg, hsome, ?_⟩
  rw [htemp]
  norm_num [sampleReading]

/-! ### C9 — forecast merge contributor selection -/

/-- C9: for every day-count, the forecast merge is absent exactly when no
provider supplied at least `days` entries; on success the contributing
sources are exactly those providers, and the merged days are computed from
their forecasts truncated to the first `days` entries. -/
theorem forecast_contributors (data : WeatherData) (days now : Nat) :
    (aggregateForecast data days now = none ↔
      data.forecasts.filter (fun p => days ≤ p.2.forecast.length) = []) ∧
    (∀ af, aggregateForecast data days now = some af →
      af.sources
        = (data.forecasts.filter (fun p => days ≤ p.2.forecast.length)).map
            (fun p => p.1) ∧
      af.days = (List.range days).map (fun day =>
        aggregateDayEntries
          ((data.forecasts.filter (fun p => days ≤ p.2.forecast.length)).map
            (fun p => p.2.forecast.take days)) day)) := by
  unfold aggregateForecast
  by_cases h0 : data.forecasts.length = 0
  · have hnil : data.forecasts = [] := List.length_eq_zero.mp h0
    rw [if_pos h0]
    simp [hnil]
  · rw [if_neg h0]
    by_cases hc : data.forecasts.filter (fun p => days ≤ p.2.forecast.length) = []
    · rw [if_pos (by simp [hc])]
      simp [hc]
    · rw [if_neg (by simpa [List.length_eq_zero] using hc)]
      constructor
      · simp [hc]
      · intro af haf
        cases haf
        exact ⟨rfl, rfl⟩

/-- Witness for C9: one provider with a 2-day forecast contributes for
day-count 2 but not for day-count 3. -/
theorem forecast_contributors_witness :
    (aggregateForecast
      { city := "c", current := []
        forecasts := [("a", ⟨"c", [zeroForecastDay, zeroForecastDay], "a"⟩)] }
      3 0 = none) ∧
    ∀ af, aggregateForecast
      { city := "c", current := []
        forecasts := [("a", ⟨"c", [zeroForecastDay, zeroForecastDay], "a"⟩)] }
      2 0 = some af → af.sources = ["a"] := by
  constructor
  · exact (forecast_contributors _ 3 0).1.mpr (by simp [zeroForecastDay])
  · intro af haf
    have h := ((forecast_contributors _ 2 0).2 af haf).1
    simpa using h

/-! ### C4 — per-city fetch cycle -/

theorem mem_keys_alistInsert {κ ν : Type} [DecidableEq κ] (l : List (κ × ν))
    (k s : κ) (v : ν) :
    s ∈ (alistInsert l k v).map Prod.fst ↔ s = k ∨ s ∈ l.map Prod.fst := by
  by_cases hk : s = k
  · subst hk
    simp [alistInsert]
  · simp only [alistInsert, List.map_append, List.mem_append, List.mem_map,
      List.mem_filter, List.map_cons, List.map_nil, List.mem_singleton]
    constructor
    · rintro (⟨p, ⟨hp, _⟩, rfl⟩ | rfl)
      · exact Or.inr ⟨p, hp, rfl⟩
      · exact Or.inl rfl
    · rintro (rfl | ⟨p, hp, rfl⟩)
      · exact Or.inr rfl
      · exact Or.inl ⟨p, ⟨hp, by simpa using hk⟩, rfl⟩

theorem collectStep_current (wd : WeatherData) (r : APIResponse) :
    (collectStep wd r).current
      = match r.current with
        | some cw => alistInsert wd.current r.source cw
        | none => wd.current := by
  cases hc : r.current <;> cases hf : r.forecastResp <;>
    simp [collectStep, hc, hf]

theorem mem_keys_collect (city : String) (responses : List APIResponse)
    (s : String) :
    s ∈ (collectResponses city responses).current.map Prod.fst ↔
      ∃ r ∈ responses, r.source = s ∧ r.current.isSome := by
  suffices h : ∀ acc : WeatherData,
      (s ∈ (responses.foldl collectStep acc).current.map Prod.fst ↔
        s ∈ acc.current.map Prod.fst
          ∨ ∃ r ∈ responses, r.source = s ∧ r.current.isSome) by
    simpa [collectResponses] using h { city := city, current := [], forecasts := [] }
  intro acc
  induction responses generalizing acc with
  | nil => simp
  | cons r rs ih =>
    simp only [List.foldl_cons]
    rw [ih]
    have hstep := collectStep_current acc r
    cases hc : r.current with
    | none =>
      rw [hc] at hstep
      rw [hstep]
      have hrP : ¬ (r.source = s ∧ r.current.isSome = true) := by simp [hc]
      simp only [List.mem_cons]
      constructor
      · rintro (h | ⟨q, hq, hP⟩)
        · exact Or.inl h
        · exact Or.inr ⟨q, Or.inr hq, hP⟩
      · rintro (h | ⟨q, (rfl | hq), hP⟩)
        · exact Or.inl h
        · exact absurd hP hrP
        · exact Or.inr ⟨q, hq, hP⟩
    | some cw =>
      rw [hc] at hstep
      rw [hstep, mem_keys_alistInsert]
      have hsome : r.current.isSome = true := by simp [hc]
      simp only [List.mem_cons]
      constructor
      · rintro ((rfl | h) | ⟨q, hq, hP⟩)
        · exact Or.inr ⟨r, Or.inl rfl, rfl, hsome⟩
        · exact Or.inl h
        · exact Or.inr ⟨q, Or.inr hq, hP⟩
      · rintro (h | ⟨q, (rfl | hq), hs, hq2⟩)
        · exact Or.inl (Or.inr h)
        · exact Or.inl (Or.inl hs.symm)
        · exact Or.inr ⟨q, hq, hs, hq2⟩

theorem successCount_eq_zero (responses : List APIResponse) :
    successCount responses = 0 ↔ ¬ ∃ r ∈ responses, r.current.isSome := by
  simp [successCount, List.length_eq_zero, List.filter_eq_nil_iff]

/-- C4: a city's fetch cycle succeeds (snapshot built and consensus produced)
exactly when at least one source returned a current reading; with zero
readings it fails with the all-sources-failed error; and on success the
consensus record's contributing sources are exactly the sources that
returned a reading. -/
theorem fetch_city_cycle (city : String) (responses : List APIResponse) :
    ((∃ out, fetchCityWeather city responses = Except.ok out) ↔
      ∃ r ∈ responses, r.current.isSome) ∧
    (successCount responses = 0 →
      fetchCityWeather city responses
        = Except.error ("all API calls failed for city " ++ city)) ∧
    (∀ wd agg, fetchCityWeather city responses = Except.ok (wd, agg) →
      wd = collectResponses city responses ∧
      ∃ a, agg = some a ∧
        ∀ s, s ∈ a.sources ↔ ∃ r ∈ responses, r.source = s ∧ r.current.isSome) := by
  by_cases hz : successCount responses = 0
  · have hno : ¬ ∃ r ∈ responses, r.current.isSome :=
      (successCount_eq_zero responses).mp hz
    refine ⟨?_, fun _ => ?_, ?_⟩
    · simp only [fetchCityWeather, if_pos hz]
      constructor
      · rintro ⟨out, hout⟩
        cases hout
      · intro h
        exact absurd h hno
    · simp only [fetchCityWeather, if_pos hz]
    · intro wd agg hok
      simp only [fetchCityWeather, if_pos hz] at hok
      cases hok
  · have hyes : ∃ r ∈ responses, r.current.isSome := by
      by_contra h
      exact hz ((successCount_eq_zero responses).mpr h)
    have hkeys : ∃ s, s ∈ (collectResponses city responses).current.map Prod.fst := by
      obtain ⟨r, hr, hsome⟩ := hyes
      exact ⟨r.source, (mem_keys_collect city responses r.source).mpr ⟨r, hr, rfl, hsome⟩⟩
    have hne : (collectResponses city responses).current ≠ [] := by
      obtain ⟨s, hs⟩ := hkeys
      intro hnil
      rw [hnil] at hs
      simp at hs
    obtain ⟨a, hsome, _, _, _, _, _, _, _, hsrc, _⟩ :=
      aggregate_current_means (collectResponses city responses) hne
    refine ⟨?_, fun h0 => absurd h0 hz, ?_⟩
    · simp only [fetchCityWeather, if_neg hz]
      exact ⟨fun _ => hyes, fun _ => ⟨_, rfl⟩⟩
    · intro wd agg hok
      simp only [fetchCityWeather, if_neg hz] at hok
      obtain ⟨hwd, hagg⟩ := Prod.mk.injEq .. ▸ (Except.ok.injEq .. ▸ hok)
      refine ⟨hwd.symm, a, ?_, ?_⟩
      · rw [← hagg, hsome]
      · intro s
        rw [hsrc]
        exact mem_keys_collect city responses s

/-- Witness for C4: one succeeding source out of two. -/
theorem fetch_city_cycle_witness :
    ∀ wd agg, fetchCityWeather "c"
        [⟨"a", some (sampleReading 10), none⟩, ⟨"b", none, none⟩]
        = Except.ok (wd, agg) →
      ∃ a, agg = some a ∧ ("a" ∈ a.sources ∧ "b" ∉ a.sources) := by
  intro wd agg hok
  obtain ⟨-, a, ha, hiff⟩ := (fetch_city_cycle "c"
    [⟨"a", some (sampleReading 10), none⟩, ⟨"b", none, none⟩]).2.2 wd agg hok
  refine ⟨a, ha, ?_, ?_⟩
  · exact (hiff "a").mpr ⟨⟨"a", some (sampleReading 10), none⟩, by simp, rfl, rfl⟩
  · intro hb
    obtain ⟨r, hr, hsrc, hsome⟩ := (hiff "b").mp hb
    simp only [List.mem_cons, List.not_mem_nil, or_false] at hr
    rcases hr with rfl | rfl
    · simp at hsrc
    · simp at hsome

/-! ### C3 — lazy expiry on cache reads -/

theorem alistLookup_alistErase {κ ν : Type} [DecidableEq κ] (l : List (κ × ν))
    (k : κ) : alistLookup (alistErase l k) k = none := by
  induction l with
  | nil => rfl
  | cons p rest ih =>
    by_cases h : p.1 = k
    · simpa [alistErase, List.filter_cons, h] using ih
    · simpa [alistErase, List.filter_cons, h, alistLookup] using ih

theorem alistLookup_alistModify {κ ν : Type} [DecidableEq κ] (l : List (κ × ν))
    (k : κ) (g : ν → ν) :
    alistLookup (alistModify l k g) k = (alistLookup l k).map g := by
  induction l with
  | nil => rfl
  | cons p rest ih =>
    obtain ⟨k1, v⟩ := p
    by_cases h : k1 = k
    · subst h
      have hhead : alistModify ((k1, v) :: rest) k1 g
          = (k1, g v) :: alistModify rest k1 g := by
        simp [alistModify]
      rw [hhead]
      have h1 : alistLookup ((k1, g v) :: alistModify rest k1 g) k1
          = some (g v) := by
        simp [alistLookup]
      have h2 : alistLookup ((k1, v) :: rest) k1 = some v := by
        simp [alistLookup]
      rw [h1, h2]
      rfl
    · simp only [alistModify, List.map_cons]
      rw [if_neg h]
      simp only [alistLookup]
      rw [if_neg h, if_neg h]
      simpa [alistModify] using ih

/-- C3: a cache read whose stored entry is past its expiry instant returns
absent and deletes the entry, and any payload a read returns is within its
expiry instant — for both the current-weather store and the forecast
store. -/
theorem cache_lazy_expiry (c : WeatherCache) (now : Nat) (city : String)
    (days : Int) :
    (∀ item, alistLookup c.currentWeather city = some item →
      item.expiresAt < now →
      (getCurrentWeather c now city).1 = none ∧
      alistLookup (getCurrentWeather c now city).2.currentWeather city = none) ∧
    (∀ w, (getCurrentWeather c now city).1 = some w →
      ∃ item, alistLookup c.currentWeather city = some item ∧
        now ≤ item.expiresAt ∧ w = item.data) ∧
    (∀ inner item, alistLookup c.forecast city = some inner →
      alistLookup inner days = some item → item.expiresAt < now →
      (getForecast c now city days).1 = none ∧
      ∀ inner2, alistLookup (getForecast c now city days).2.forecast city
          = some inner2 → alistLookup inner2 days = none) ∧
    (∀ f, (getForecast c now city days).1 = some f →
      ∃ inner item, alistLookup c.forecast city = some inner ∧
        alistLookup inner days = some item ∧
        now ≤ item.expiresAt ∧ f = item.data) := by
  refine ⟨?_, ?_, ?_, ?_⟩
  · intro item hlook hexp
    unfold getCurrentWeather
    rw [hlook]
    dsimp only
    rw [if_pos hexp]
    exact ⟨rfl, alistLookup_alistErase _ _⟩
  · intro w hw
    unfold getCurrentWeather at hw
    cases hlook : alistLookup c.currentWeather city with
    | none =>
      rw [hlook] at hw
      cases hw
    | some item =>
      rw [hlook] at hw
      dsimp only at hw
      by_cases hexp : item.expiresAt < now
      · rw [if_pos hexp] at hw
        cases hw
      · rw [if_neg hexp] at hw
        have hdata : some item.data = some w := hw
        exact ⟨item, rfl, not_lt.mp hexp, (Option.some.inj hdata).symm⟩
  · intro inner item hcity hdays hexp
    unfold getForecast
    rw [hcity]
    dsimp only
    rw [hdays]
    dsimp only
    rw [if_pos hexp]
    refine ⟨rfl, ?_⟩
    intro inner2 hinner2
    dsimp only at hinner2
    rw [alistLookup_alistModify, hcity] at hinner2
    simp only [Option.map_some'] at hinner2
    rw [← Option.some.inj hinner2]
    exact alistLookup_alistErase _ _
  · intro f hf
    unfold getForecast at hf
    cases hcity : alistLookup c.forecast city with
    | none =>
      rw [hcity] at hf
      cases hf
    | some inner =>
      rw [hcity] at hf
      dsimp only at hf
      cases hdays : alistLookup inner days with
      | none =>
        rw [hdays] at hf
        cases hf
      | some item =>
        rw [hdays] at hf
        dsimp only at hf
        by_cases hexp : item.expiresAt < now
        · rw [if_pos hexp] at hf
          cases hf
        · rw [if_neg hexp] at hf
          have hdata : some item.data = some f := hf
          exact ⟨inner, item, rfl, hdays, not_lt.mp hexp,
            (Option.some.inj hdata).symm⟩

/-- A minimal consensus current-weather payload for concrete cache states. -/
def sampleAggCur : AggregatedCurrentWeather :=
  { city := "c", temperature := 0, feelsLike := 0, humidity := 0, pressure := 0
    windSpeed := 0, description := "", icon := "", lastUpdated := 0
    sources := ["a"], confidence := 0 }

/-- A minimal consensus forecast payload for concrete cache states. -/
def sampleAggFor : AggregatedForecast :=
  { city := "c", days := [], lastUpdated := 0, sources := ["a"] }

/-- A concrete cache with one current-weather and one forecast entry, both
expiring at instant 5. -/
def sampleCache : WeatherCache :=
  { currentWeather := [("p", ⟨sampleAggCur, 5⟩)]
    forecast := [("p", [((3 : Int), ⟨sampleAggFor, 5⟩)])]
    defaultDuration := 10, maxSize := 100 }

/-- Witness for C3: reading both stores at instant 6 (past expiry 5) reports
absent and deletes the entries. -/
theorem cache_lazy_expiry_witness :
    (getCurrentWeather sampleCache 6 "p").1 = none ∧
    alistLookup (getCurrentWeather sampleCache 6 "p").2.currentWeather "p"
      = none ∧
    (getForecast sampleCache 6 "p" 3).1 = none := by
  have h := cache_lazy_expiry sampleCache 6 "p" 3
  have h1 := h.1 ⟨sampleAggCur, 5⟩ (by rfl) (by decide)
  have h3 := h.2.2.1 [((3 : Int), ⟨sampleAggFor, 5⟩)] ⟨sampleAggFor, 5⟩
    (by rfl) (by rfl) (by decide)
  exact ⟨h1.1, h1.2, h3.1⟩

/-! ### C2 — cache capacity and eviction -/

theorem length_alistErase_lt {κ ν : Type} [DecidableEq κ]
    (l : List (κ × ν)) (k : κ) (hk : k ∈ l.map Prod.fst) :
    (alistErase l k).length < l.length := by
  induction l with
  | nil => cases hk
  | cons p rest ih =>
    simp only [List.map_cons, List.mem_cons] at hk
    by_cases h : p.1 = k
    · have hle : (alistErase rest k).length ≤ rest.length :=
        List.length_filter_le _ _
      have hstep : alistErase (p :: rest) k = alistErase rest k := by
        simp [alistErase, List.filter_cons, h]
      rw [hstep]
      simp only [List.length_cons]
      omega
    · have hk2 : k ∈ rest.map Prod.fst := by
        rcases hk with hk | hk
        · exact absurd hk.symm h
        · exact hk
      have hstep : alistErase (p :: rest) k = p :: alistErase rest k := by
        simp [alistErase, List.filter_cons, h]
      rw [hstep]
      simp only [List.length_cons]
      exact Nat.succ_lt_succ (ih hk2)

theorem length_alistInsert_le {κ ν : Type} [DecidableEq κ]
    (l : List (κ × ν)) (k : κ) (v : ν) :
    (alistInsert l k v).length ≤ l.length + 1 := by
  have h : (l.filter (fun p => p.1 ≠ k)).length ≤ l.length :=
    List.length_filter_le _ _
  simpa [alistInsert] using h

theorem evictStep_foldl_props
    (l : List (String × CacheItem AggregatedCurrentWeather))
    (acc : String × Nat) (hacc : acc.1 ≠ "")
    (hkeys : ∀ p ∈ l, p.1 ≠ "") :
    (l.foldl evictStepCurrent acc).1 ≠ "" ∧
    (l.foldl evictStepCurrent acc = acc
      ∨ l.foldl evictStepCurrent acc ∈ l.map (fun p => (p.1, p.2.expiresAt))) ∧
    (l.foldl evictStepCurrent acc).2 ≤ acc.2 ∧
    (∀ p ∈ l, (l.foldl evictStepCurrent acc).2 ≤ p.2.expiresAt) := by
  induction l generalizing acc with
  | nil => simp [hacc]
  | cons q rest ih =>
    simp only [List.foldl_cons]
    have hstep : evictStepCurrent acc q
        = if q.2.expiresAt < acc.2 then (q.1, q.2.expiresAt) else acc := by
      unfold evictStepCurrent
      by_cases hq : q.2.expiresAt < acc.2
      · rw [if_pos (Or.inr hq), if_pos hq]
      · rw [if_neg ?_, if_neg hq]
        rintro (h1 | h2)
        · exact hacc h1
        · exact hq h2
    rw [hstep]
    have hkeysr : ∀ p ∈ rest, p.1 ≠ "" :=
      fun p hp => hkeys p (List.mem_cons_of_mem _ hp)
    by_cases hq : q.2.expiresAt < acc.2
    · rw [if_pos hq]
      obtain ⟨hne, hmem, hle, hall⟩ :=
        ih (q.1, q.2.expiresAt) (hkeys q (List.mem_cons_self _ _)) hkeysr
      refine ⟨hne, ?_, ?_, ?_⟩
      · rcases hmem with h | h
        · exact Or.inr (by simp [h])
        · exact Or.inr (List.mem_cons_of_mem _ h)
      · exact le_trans hle (le_of_lt hq)
      · intro p hp
        rcases List.mem_cons.mp hp with rfl | hp
        · exact hle
        · exact hall p hp
    · rw [if_neg hq]
      obtain ⟨hne, hmem, hle, hall⟩ := ih acc hacc hkeysr
      refine ⟨hne, ?_, hle, ?_⟩
      · rcases hmem with h | h
        · exact Or.inl h
        · exact Or.inr (List.mem_cons_of_mem _ h)
      · intro p hp
        rcases List.mem_cons.mp hp with rfl | hp
        · exact le_trans hle (not_lt.mp hq)
        · exact hall p hp

/-- For a non-empty current-weather store whose keys are non-empty city
names, the eviction scan picks an existing entry whose expiry is minimal
within that store. -/
theorem evictPickCurrent_min (c : WeatherCache)
    (hne : c.currentWeather ≠ [])
    (hkeys : ∀ p ∈ c.currentWeather, p.1 ≠ "") :
    (evictPickCurrent c).1 ≠ "" ∧
    evictPickCurrent c ∈ c.currentWeather.map (fun p => (p.1, p.2.expiresAt)) ∧
    (∀ p ∈ c.currentWeather, (evictPickCurrent c).2 ≤ p.2.expiresAt) := by
  obtain ⟨q, rest, hcons⟩ := List.exists_cons_of_ne_nil hne
  have hq1 : q.1 ≠ "" := hkeys q (by rw [hcons]; exact List.mem_cons_self _ _)
  have hkeysr : ∀ p ∈ rest, p.1 ≠ "" := by
    intro p hp
    exact hkeys p (by rw [hcons]; exact List.mem_cons_of_mem _ hp)
  have hfirst : evictStepCurrent ("", 0) q = (q.1, q.2.expiresAt) := by
    unfold evictStepCurrent
    rw [if_pos (Or.inl rfl)]
  obtain ⟨hne2, hmem, hle, hall⟩ :=
    evictStep_foldl_props rest (q.1, q.2.expiresAt) hq1 hkeysr
  have hpick : evictPickCurrent c = rest.foldl evictStepCurrent (q.1, q.2.expiresAt) := by
    unfold evictPickCurrent
    rw [hcons, List.foldl_cons, hfirst]
  refine ⟨by rw [hpick]; exact hne2, ?_, ?_⟩
  · rw [hpick, hcons]
    rcases hmem with h | h
    · rw [h]
      simp
    · exact List.mem_cons_of_mem _ h
  · intro p hp
    rw [hcons] at hp
    rw [hpick]
    rcases List.mem_cons.mp hp with rfl | hp
    · exact hle
    · exact hall p hp

/-- C2 (amended): `SetCurrentWeather` bounds the current-weather store alone
— if that store's occupancy was within `maxSize ≥ 1` and its keys are
non-empty city names, it stays within `maxSize` after insertion — and when
the store is at or above capacity the eviction scan picks an existing entry
of minimal expiry within that same store only. -/
theorem setCurrentWeather_per_store_bound (c : WeatherCache) (now : Nat)
    (city : String) (w : AggregatedCurrentWeather)
    (hmax : 1 ≤ c.maxSize)
    (hkeys : ∀ p ∈ c.currentWeather, p.1 ≠ "")
    (hlen : c.currentWeather.length ≤ c.maxSize) :
    (setCurrentWeather c now city w).currentWeather.length ≤ c.maxSize ∧
    (c.maxSize ≤ c.currentWeather.length →
      evictPickCurrent c
        ∈ c.currentWeather.map (fun p => (p.1, p.2.expiresAt)) ∧
      ∀ p ∈ c.currentWeather, (evictPickCurrent c).2 ≤ p.2.expiresAt) := by
  constructor
  · unfold setCurrentWeather
    by_cases hfull : c.currentWeather.length ≥ c.maxSize
    · rw [if_pos hfull]
      have hne : c.currentWeather ≠ [] := by
        intro hnil
        rw [hnil] at hfull
        simp at hfull
        omega
      obtain ⟨hne2, hmem, -⟩ := evictPickCurrent_min c hne hkeys
      have hkey_mem : (evictPickCurrent c).1 ∈ c.currentWeather.map Prod.fst := by
        rcases List.mem_map.mp hmem with ⟨p, hp, hpk⟩
        exact List.mem_map.mpr ⟨p, hp, by rw [← hpk]⟩
      have hev : evictOldestCurrent c
          = { c with currentWeather :=
              alistErase c.currentWeather (evictPickCurrent c).1 } := by
        unfold evictOldestCurrent
        rw [if_pos hne2]
      rw [hev]
      have herase :
          (alistErase c.currentWeather (evictPickCurrent c).1).length
            < c.currentWeather.length :=
        length_alistErase_lt _ _ hkey_mem
      have hins := length_alistInsert_le
        (alistErase c.currentWeather (evictPickCurrent c).1) city
        (⟨w, now + c.defaultDuration⟩ : CacheItem AggregatedCurrentWeather)
      dsimp only at hins ⊢
      omega
    · rw [if_neg hfull]
      have hins := length_alistInsert_le c.currentWeather city
        (⟨w, now + c.defaultDuration⟩ : CacheItem AggregatedCurrentWeather)
      dsimp only at hins ⊢
      omega
  · intro hfull
    have hne : c.currentWeather ≠ [] := by
      intro hnil
      rw [hnil] at hfull
      simp at hfull
      omega
    obtain ⟨-, hmem, hall⟩ := evictPickCurrent_min c hne hkeys
    exact ⟨hmem, hall⟩

/-- Witness for C2's amended statement: inserting into a full one-slot
current-weather store evicts its single (minimal-expiry) entry. -/
theorem setCurrentWeather_per_store_bound_witness :
    (setCurrentWeather
      { currentWeather := [("a", ⟨sampleAggCur, 5⟩)], forecast := []
        defaultDuration := 10, maxSize := 1 } 0 "b" sampleAggCur
      ).currentWeather.length ≤ 1 := by
  have h := setCurrentWeather_per_store_bound
    { currentWeather := [("a", ⟨sampleAggCur, 5⟩)], forecast := []
      defaultDuration := 10, maxSize := 1 } 0 "b" sampleAggCur
    (by decide) (by decide) (by decide)
  exact h.1

/-- The cache state reached from an empty one-slot cache by one forecast
insertion followed by one current-weather insertion. -/
def overfullCache : WeatherCache :=
  setCurrentWeather
    (setForecast (newWeatherCache 10 1) 0 "a" 1 sampleAggFor)
    0 "b" sampleAggCur

/-- Counterexample to C2 as stated: with `maxSize = 1`, two insertions
through the cache API leave a combined occupancy of 2 — `SetCurrentWeather`
sizes and evicts against the current-weather store alone, ignoring the
forecast store, so the combined occupancy exceeds the configured maximum. -/
theorem combined_occupancy_exceeds_max :
    overfullCache.maxSize < combinedOccupancy overfullCache := by
  decide

/-! ### C10 — day-count validation in GetAggregatedForecast -/

/-- C10: for any out-of-range day count (days < 1 or days > 7),
`GetAggregatedForecast` returns the validation error immediately — the cache
state is returned untouched and no fetch cycle is triggered. -/
theorem forecast_days_validation (fetch : WeatherCache → Option WeatherCache)
    (c : WeatherCache) (now : Nat) (city : String) (days : Int)
    (hdays : days < 1 ∨ days > 7) :
    getAggregatedForecast fetch c now city days
      = (Except.error "days must be between 1 and 7", c, false) := by
  unfold getAggregatedForecast
  rw [if_pos hdays]

/-- Witness for C10 at days = 0 and days = 8, with a fetch oracle that would
change the state if it were ever consulted. -/
theorem forecast_days_validation_witness :
    getAggregatedForecast (fun _ => some (newWeatherCache 1 1)) sampleCache
        6 "p" 0
      = (Except.error "days must be between 1 and 7", sampleCache, false) ∧
    getAggregatedForecast (fun _ => some (newWeatherCache 1 1)) sampleCache
        6 "p" 8
      = (Except.error "days must be between 1 and 7", sampleCache, false) :=
  ⟨forecast_days_validation _ sampleCache 6 "p" 0 (Or.inl (by decide)),
   forecast_days_validation _ sampleCache 6 "p" 8 (Or.inr (by decide))⟩

/-! ### C5/C6 — resilient fetcher -/

theorem retryLoop_zero (cfg : RetryConfig) (oracle : Nat → AttemptOutcome)
    (cancelAt : Option ℚ) (attempt : Nat) (elapsed : ℚ)
    (lastErr : Option LastErr) (waits : List ℚ) :
    retryLoop cfg oracle cancelAt 0 attempt elapsed lastErr waits
      = ⟨Except.error (FetchFailure.maxRetriesExceeded lastErr), waits, attempt⟩ :=
  rfl

theorem retryLoop_succ (cfg : RetryConfig) (oracle : Nat → AttemptOutcome)
    (cancelAt : Option ℚ) (fuel attempt : Nat) (elapsed : ℚ)
    (lastErr : Option LastErr) (waits : List ℚ) :
    retryLoop cfg oracle cancelAt (fuel + 1) attempt elapsed lastErr waits
      = if 0 < attempt ∧ cancelledDuring cancelAt elapsed (backoffDelay cfg attempt)
        then ⟨Except.error FetchFailure.cancelled, waits, attempt⟩
        else
          (match oracle attempt with
          | AttemptOutcome.createFailed =>
            ⟨Except.error FetchFailure.createRequestFailed,
              if 0 < attempt then waits ++ [backoffDelay cfg attempt] else waits,
              attempt + 1⟩
          | AttemptOutcome.transportError =>
            retryLoop cfg oracle cancelAt fuel (attempt + 1)
              (if 0 < attempt then elapsed + backoffDelay cfg attempt else elapsed)
              (some LastErr.transport)
              (if 0 < attempt then waits ++ [backoffDelay cfg attempt] else waits)
          | AttemptOutcome.response status body =>
            if 200 ≤ status ∧ status < 300 then
              match body with
              | some b =>
                ⟨Except.ok b,
                  if 0 < attempt then waits ++ [backoffDelay cfg attempt] else waits,
                  attempt + 1⟩
              | none =>
                retryLoop cfg oracle cancelAt fuel (attempt + 1)
                  (if 0 < attempt then elapsed + backoffDelay cfg attempt else elapsed)
                  (some LastErr.readFailed)
                  (if 0 < attempt then waits ++ [backoffDelay cfg attempt] else waits)
            else
              if 400 ≤ status ∧ status < 500 ∧ status ≠ 429 then
                ⟨Except.error (FetchFailure.maxRetriesExceeded
                  (some (LastErr.httpStatus status))),
                  if 0 < attempt then waits ++ [backoffDelay cfg attempt] else waits,
                  attempt + 1⟩
              else
                retryLoop cfg oracle cancelAt fuel (attempt + 1)
                  (if 0 < attempt then elapsed + backoffDelay cfg attempt else elapsed)
                  (some (LastErr.httpStatus status))
                  (if 0 < attempt then waits ++ [backoffDelay cfg attempt] else waits)) :=
  rfl

theorem retryLoop_invariant (cfg : RetryConfig) (oracle : Nat → AttemptOutcome)
    (cancelAt : Option ℚ) :
    ∀ fuel attempt (elapsed : ℚ) (lastErr : Option LastErr) (waits : List ℚ),
      waits.length = attempt - 1 →
      (∀ k w, waits[k]? = some w → w = cfg.retryDelay * cfg.multiplier ^ k) →
      1 ≤ attempt + fuel →
      (retryLoop cfg oracle cancelAt fuel attempt elapsed lastErr waits).attempts
          ≤ attempt + fuel ∧
      attempt
        ≤ (retryLoop cfg oracle cancelAt fuel attempt elapsed lastErr waits).attempts ∧
      (retryLoop cfg oracle cancelAt fuel attempt elapsed lastErr waits).waits.length
          + 1 ≤ attempt + fuel ∧
      (∀ k w,
        (retryLoop cfg oracle cancelAt fuel attempt elapsed lastErr waits).waits[k]?
            = some w →
        w = cfg.retryDelay * cfg.multiplier ^ k) := by
  intro fuel
  induction fuel with
  | zero =>
    intro attempt elapsed lastErr waits hlen hget hpos
    rw [retryLoop_zero]
    dsimp only
    exact ⟨by omega, le_rfl, by omega, hget⟩
  | succ fuel ih =>
    intro attempt elapsed lastErr waits hlen hget hpos
    rw [retryLoop_succ]
    have hw1len :
        (if 0 < attempt then waits ++ [backoffDelay cfg attempt] else waits).length
          = attempt := by
      by_cases ha : 0 < attempt
      · rw [if_pos ha]
        simp only [List.length_append, List.length_singleton]
        omega
      · rw [if_neg ha]
        omega
    have hw1get : ∀ k w,
        (if 0 < attempt then waits ++ [backoffDelay cfg attempt] else waits)[k]?
            = some w →
        w = cfg.retryDelay * cfg.multiplier ^ k := by
      by_cases ha : 0 < attempt
      · rw [if_pos ha]
        intro k w hk
        rw [List.getElem?_append] at hk
        by_cases hklt : k < waits.length
        · rw [if_pos hklt] at hk
          exact hget k w hk
        · rw [if_neg hklt] at hk
          rcases hn : k - waits.length with _ | j
          · rw [hn] at hk
            simp only [List.getElem?_cons_zero, Option.some.injEq] at hk
            have hkval : k = attempt - 1 := by omega
            rw [← hk, hkval]
            unfold backoffDelay
            rfl
          · rw [hn] at hk
            simp only [List.getElem?_cons_succ, List.getElem?_nil] at hk
            exact Option.noConfusion hk
      · rw [if_neg ha]
        exact hget
    by_cases hc : 0 < attempt
        ∧ cancelledDuring cancelAt elapsed (backoffDelay cfg attempt) = true
    · rw [if_pos hc]
      dsimp only
      exact ⟨by omega, le_rfl, by omega, hget⟩
    · rw [if_neg hc]
      cases horacle : oracle attempt with
      | createFailed =>
        dsimp only
        exact ⟨by omega, by omega, by omega, hw1get⟩
      | transportError =>
        dsimp only
        obtain ⟨a1, a2, a3, a4⟩ := ih (attempt + 1)
          (if 0 < attempt then elapsed + backoffDelay cfg attempt else elapsed)
          (some LastErr.transport)
          (if 0 < attempt then waits ++ [backoffDelay cfg attempt] else waits)
          (by omega) hw1get (by omega)
        exact ⟨by omega, by omega, by omega, a4⟩
      | response status body =>
        dsimp only
        by_cases h2 : 200 ≤ status ∧ status < 300
        · rw [if_pos h2]
          cases body with
          | some b =>
            dsimp only
            exact ⟨by omega, by omega, by omega, hw1get⟩
          | none =>
            dsimp only
            obtain ⟨a1, a2, a3, a4⟩ := ih (attempt + 1)
              (if 0 < attempt then elapsed + backoffDelay cfg attempt else elapsed)
              (some LastErr.readFailed)
              (if 0 < attempt then waits ++ [backoffDelay cfg attempt] else waits)
              (by omega) hw1get (by omega)
            exact ⟨by omega, by omega, by omega, a4⟩
        · rw [if_neg h2]
          by_cases h4 : 400 ≤ status ∧ status < 500 ∧ status ≠ 429
          · rw [if_pos h4]
            dsimp only
            exact ⟨by omega, by omega, by omega, hw1get⟩
          · rw [if_neg h4]
            obtain ⟨a1, a2, a3, a4⟩ := ih (attempt + 1)
              (if 0 < attempt then elapsed + backoffDelay cfg attempt else elapsed)
              (some (LastErr.httpStatus status))
              (if 0 < attempt then waits ++ [backoffDelay cfg attempt] else waits)
              (by omega) hw1get (by omega)
            exact ⟨by omega, by omega, by omega, a4⟩

theorem retryLoop_attempts_mono (cfg : RetryConfig)
    (oracle : Nat → AttemptOutcome) (cancelAt : Option ℚ) :
    ∀ fuel attempt (elapsed : ℚ) (lastErr : Option LastErr) (waits : List ℚ),
      attempt
        ≤ (retryLoop cfg oracle cancelAt fuel attempt elapsed lastErr waits).attempts := by
  intro fuel
  induction fuel with
  | zero =>
    intro attempt elapsed lastErr waits
    rw [retryLoop_zero]
  | succ fuel ih =>
    intro attempt elapsed lastErr waits
    rw [retryLoop_succ]
    by_cases hc : 0 < attempt
        ∧ cancelledDuring cancelAt elapsed (backoffDelay cfg attempt) = true
    · rw [if_pos hc]
    · rw [if_neg hc]
      cases horacle : oracle attempt with
      | createFailed =>
        dsimp only
        omega
      | transportError =>
        dsimp only
        exact le_trans (Nat.le_succ _) (ih (attempt + 1) _ _ _)
      | response status body =>
        dsimp only
        by_cases h2 : 200 ≤ status ∧ status < 300
        · rw [if_pos h2]
          cases body with
          | some b =>
            dsimp only
            omega
          | none =>
            dsimp only
            exact le_trans (Nat.le_succ _) (ih (attempt + 1) _ _ _)
        · rw [if_neg h2]
          by_cases h4 : 400 ≤ status ∧ status < 500 ∧ status ≠ 429
          · rw [if_pos h4]
            dsimp only
            omega
          · rw [if_neg h4]
            exact le_trans (Nat.le_succ _) (ih (attempt + 1) _ _ _)

theorem retryLoop_attempts_consume (cfg : RetryConfig)
    (oracle : Nat → AttemptOutcome) (fuel attempt : Nat) (elapsed : ℚ)
    (lastErr : Option LastErr) (waits : List ℚ) (hfuel : 1 ≤ fuel) :
    attempt + 1
      ≤ (retryLoop cfg oracle none fuel attempt elapsed lastErr waits).attempts := by
  obtain ⟨f, rfl⟩ : ∃ f, fuel = f + 1 := ⟨fuel - 1, by omega⟩
  rw [retryLoop_succ]
  rw [if_neg (by simp [cancelledDuring])]
  cases horacle : oracle attempt with
  | createFailed =>
    dsimp only
    omega
  | transportError =>
    dsimp only
    exact retryLoop_attempts_mono cfg oracle none f (attempt + 1) _ _ _
  | response status body =>
    dsimp only
    by_cases h2 : 200 ≤ status ∧ status < 300
    · rw [if_pos h2]
      cases body with
      | some b =>
        dsimp only
        omega
      | none =>
        dsimp only
        exact retryLoop_attempts_mono cfg oracle none f (attempt + 1) _ _ _
    · rw [if_neg h2]
      by_cases h4 : 400 ≤ status ∧ status < 500 ∧ status ≠ 429
      · rw [if_pos h4]
      · rw [if_neg h4]
        exact retryLoop_attempts_mono cfg oracle none f (attempt + 1) _ _ _

theorem retryLoop_all_transport (cfg : RetryConfig)
    (oracle : Nat → AttemptOutcome)
    (horacle : ∀ k, oracle k = AttemptOutcome.transportError) :
    ∀ fuel attempt (elapsed : ℚ) (lastErr : Option LastErr) (waits : List ℚ),
      1 ≤ fuel →
      (retryLoop cfg oracle none fuel attempt elapsed lastErr waits).result
        = Except.error (FetchFailure.maxRetriesExceeded (some LastErr.transport)) := by
  intro fuel
  induction fuel with
  | zero =>
    intro _ _ _ _ h
    omega
  | succ fuel ih =>
    intro attempt elapsed lastErr waits _
    rw [retryLoop_succ]
    rw [if_neg (by simp [cancelledDuring])]
    rw [horacle attempt]
    dsimp only
    rcases Nat.eq_zero_or_pos fuel with hf | hf
    · subst hf
      rw [retryLoop_zero]
    · exact ih (attempt + 1) _ _ _ hf

/-- C5: a run makes at most maxRetries + 1 attempts (at most maxRetries
retries after the first attempt); the k-th completed backoff wait (0-based,
preceding retry k+1) is retryDelay · multiplier^k; and a cancellation
falling inside a backoff wait makes the run abort with the cancellation
failure instead of the retry-exhausted failure. -/
theorem retry_budget_and_backoff (cfg : RetryConfig)
    (oracle : Nat → AttemptOutcome) (cancelAt : Option ℚ) :
    (doGetWithRetry cfg oracle cancelAt).attempts ≤ cfg.maxRetries + 1 ∧
    (doGetWithRetry cfg oracle cancelAt).waits.length ≤ cfg.maxRetries ∧
    (∀ k w, (doGetWithRetry cfg oracle cancelAt).waits[k]? = some w →
      w = cfg.retryDelay * cfg.multiplier ^ k) ∧
    (∀ t, cancelAt = some t → (∀ k, oracle k = AttemptOutcome.transportError) →
      1 ≤ cfg.maxRetries → t < cfg.retryDelay →
      (doGetWithRetry cfg oracle cancelAt).result
        = Except.error FetchFailure.cancelled) := by
  obtain ⟨h1, -, h3, h4⟩ := retryLoop_invariant cfg oracle cancelAt
    (cfg.maxRetries + 1) 0 0 none [] (by simp)
    (by intro k w hk; simp at hk) (by omega)
  refine ⟨?_, ?_, ?_, ?_⟩
  · unfold doGetWithRetry
    omega
  · unfold doGetWithRetry
    omega
  · intro k w hk
    exact h4 k w (by simpa [doGetWithRetry] using hk)
  · intro t hcan horacle hmax hlt
    subst hcan
    obtain ⟨m, hm⟩ : ∃ m, cfg.maxRetries = m + 1 := ⟨cfg.maxRetries - 1, by omega⟩
    unfold doGetWithRetry
    rw [hm]
    rw [retryLoop_succ]
    rw [if_neg (by simp)]
    rw [horacle 0]
    dsimp only
    rw [if_neg (lt_irrefl 0), if_neg (lt_irrefl 0)]
    rw [retryLoop_succ]
    rw [if_pos ?hcond]
    case hcond =>
      refine ⟨Nat.succ_pos 0, ?_⟩
      unfold cancelledDuring backoffDelay
      simp only [decide_eq_true_eq]
      simpa using hlt

/-- Witness for C5: two transport failures with cancellation during the
first backoff wait yield the cancellation failure. -/
theorem retry_budget_and_backoff_witness :
    (doGetWithRetry ⟨2, 1, 2⟩ (fun _ => AttemptOutcome.transportError)
      (some (1/2))).result = Except.error FetchFailure.cancelled :=
  (retry_budget_and_backoff ⟨2, 1, 2⟩ (fun _ => AttemptOutcome.transportError)
    (some (1/2))).2.2.2 (1/2) rfl (fun _ => rfl) (by norm_num) (by norm_num)

/-- C6: without cancellation — a first-attempt 2xx with a readable body
succeeds immediately with that body; a retryable first outcome (transport,
429, 5xx) leads to a second attempt; a first-attempt non-retryable 4xx
fails immediately, with no backoff wait and no retry; and an all-transport
run exhausts the budget surfacing the last observed (transport) error. -/
theorem status_class_handling (cfg : RetryConfig)
    (oracle : Nat → AttemptOutcome) :
    (∀ s b, oracle 0 = AttemptOutcome.response s (some b) → 200 ≤ s → s < 300 →
      (doGetWithRetry cfg oracle none).result = Except.ok b ∧
      (doGetWithRetry cfg oracle none).waits = [] ∧
      (doGetWithRetry cfg oracle none).attempts = 1) ∧
    (specRetryable (oracle 0) = true → 1 ≤ cfg.maxRetries →
      2 ≤ (doGetWithRetry cfg oracle none).attempts) ∧
    (∀ s b, oracle 0 = AttemptOutcome.response s b → 400 ≤ s → s < 500 →
      s ≠ 429 →
      (doGetWithRetry cfg oracle none).result
        = Except.error (FetchFailure.maxRetriesExceeded
            (some (LastErr.httpStatus s))) ∧
      (doGetWithRetry cfg oracle none).waits = [] ∧
      (doGetWithRetry cfg oracle none).attempts = 1) ∧
    ((∀ k, oracle k = AttemptOutcome.transportError) →
      (doGetWithRetry cfg oracle none).result
        = Except.error (FetchFailure.maxRetriesExceeded
            (some LastErr.transport))) := by
  refine ⟨?_, ?_, ?_, ?_⟩
  · intro s b h0 h200 h300
    unfold doGetWithRetry
    rw [retryLoop_succ]
    rw [if_neg (by simp [cancelledDuring])]
    rw [h0]
    dsimp only
    rw [if_pos ⟨h200, h300⟩]
    dsimp only
    rw [if_neg (lt_irrefl 0)]
    exact ⟨rfl, rfl, rfl⟩
  · intro hret hmax
    unfold doGetWithRetry
    rw [retryLoop_succ]
    rw [if_neg (by simp [cancelledDuring])]
    rcases ho : oracle 0 with _ | _ | ⟨s, b⟩
    · rw [ho] at hret
      simp [specRetryable] at hret
    · dsimp only
      exact retryLoop_attempts_consume cfg oracle cfg.maxRetries (0 + 1) _ _ _ hmax
    · rw [ho] at hret
      simp only [specRetryable, decide_eq_true_eq] at hret
      dsimp only
      have h2 : ¬(200 ≤ s ∧ s < 300) := by
        rcases hret with rfl | ⟨h5, h6⟩ <;> omega
      have hno4 : ¬(400 ≤ s ∧ s < 500 ∧ s ≠ 429) := by
        rcases hret with rfl | ⟨h5, h6⟩
        · simp
        · omega
      rw [if_neg h2, if_neg hno4]
      exact retryLoop_attempts_consume cfg oracle cfg.maxRetries (0 + 1) _ _ _ hmax
  · intro s b h0 h400 h500 h429
    unfold doGetWithRetry
    rw [retryLoop_succ]
    rw [if_neg (by simp [cancelledDuring])]
    rw [h0]
    dsimp only
    rw [if_neg (by omega), if_pos ⟨h400, h500, h429⟩]
    dsimp only
    rw [if_neg (lt_irrefl 0)]
    exact ⟨rfl, rfl, rfl⟩
  · intro horacle
    unfold doGetWithRetry
    exact retryLoop_all_transport cfg oracle horacle (cfg.maxRetries + 1) 0 0
      none [] (by omega)

/-- Witness for C6: a first-attempt 404 fails immediately, with no backoff
wait and a single attempt, surfacing HTTP 404 as the last error. -/
theorem status_class_handling_witness :
    (doGetWithRetry ⟨2, 1, 2⟩ (fun _ => AttemptOutcome.response 404 none)
      none).result
      = Except.error (FetchFailure.maxRetriesExceeded
          (some (LastErr.httpStatus 404))) ∧
    (doGetWithRetry ⟨2, 1, 2⟩ (fun _ => AttemptOutcome.response 404 none)
      none).waits = [] ∧
    (doGetWithRetry ⟨2, 1, 2⟩ (fun _ => AttemptOutcome.response 404 none)
      none).attempts = 1 :=
  (status_class_handling ⟨2, 1, 2⟩
    (fun _ => AttemptOutcome.response 404 none)).2.2.1 404 none rfl
    (by norm_num) (by norm_num) (by norm_num)

/-! ### C7 — circuit breaker -/

/-- C7: the trip predicate embedded from `NewBaseClient` holds exactly when
the window's request count is at least 3 and its failure ratio is at least
0.6; a closed breaker moves to open after a call exactly when the predicate
holds on the updated counts; an open breaker rejects calls exactly while
the breaker timeout has not yet elapsed, then admits the next caller as the
single half-open probe; and in half-open exactly one probe is admitted. -/
theorem breaker_transitions (timeout : ℚ) (b : Breaker) (now : ℚ)
    (success : Bool) :
    (∀ c : BreakerCounts, readyToTrip c = true ↔
      3 ≤ c.requests
        ∧ (3 / 5 : ℚ) ≤ (c.totalFailures : ℚ) / (c.requests : ℚ)) ∧
    (b.state = BreakerState.closed →
      ((breakerAfterCall timeout b now success).state = BreakerState.opened ↔
        readyToTrip ⟨b.counts.requests,
          b.counts.totalFailures + (if success then 0 else 1)⟩ = true)) ∧
    (b.state = BreakerState.opened →
      (breakerBeforeCall b now = none ↔ now < b.expiry)) ∧
    (b.state = BreakerState.opened → b.expiry ≤ now →
      ∃ b2, breakerBeforeCall b now = some b2 ∧
        b2.state = BreakerState.halfOpen ∧ b2.probeInFlight = true) ∧
    (b.state = BreakerState.halfOpen → b.probeInFlight = true →
      breakerBeforeCall b now = none) ∧
    (b.state = BreakerState.halfOpen → b.probeInFlight = false →
      ∃ b2, breakerBeforeCall b now = some b2 ∧ b2.probeInFlight = true) := by
  refine ⟨?_, ?_, ?_, ?_, ?_, ?_⟩
  · intro c
    simp only [readyToTrip, decide_eq_true_eq]
    constructor
    · rintro ⟨h3, hle⟩
      refine ⟨h3, ?_⟩
      have hr : (0 : ℚ) < (c.requests : ℚ) := by
        exact_mod_cast (by omega : 0 < c.requests)
      rw [div_le_div_iff₀ (by norm_num) hr]
      have h5 : (3 : ℚ) * c.requests ≤ 5 * c.totalFailures := by
        exact_mod_cast hle
      linarith
    · rintro ⟨h3, hdiv⟩
      refine ⟨h3, ?_⟩
      have hr : (0 : ℚ) < (c.requests : ℚ) := by
        exact_mod_cast (by omega : 0 < c.requests)
      rw [div_le_div_iff₀ (by norm_num) hr] at hdiv
      have h5 : (3 : ℚ) * c.requests ≤ 5 * c.totalFailures := by linarith
      exact_mod_cast h5
  · intro hstate
    unfold breakerAfterCall
    rw [hstate]
    dsimp only
    by_cases htrip : readyToTrip ⟨b.counts.requests,
        b.counts.totalFailures + (if success then 0 else 1)⟩ = true
    · rw [if_pos htrip]
      simp [htrip]
    · rw [if_neg htrip]
      dsimp only
      constructor
      · intro h
        simp at h
      · intro h
        exact absurd h htrip
  · intro hstate
    unfold breakerBeforeCall
    rw [hstate]
    dsimp only
    by_cases h : now < b.expiry
    · rw [if_pos h]
      simp [h]
    · rw [if_neg h]
      simp [h]
  · intro hstate hexp
    unfold breakerBeforeCall
    rw [hstate]
    dsimp only
    rw [if_neg (not_lt.mpr hexp)]
    exact ⟨_, rfl, rfl, rfl⟩
  · intro hstate hprobe
    unfold breakerBeforeCall
    rw [hstate]
    dsimp only
    rw [if_pos hprobe]
  · intro hstate hprobe
    unfold breakerBeforeCall
    rw [hstate]
    dsimp only
    rw [if_neg (by simp [hprobe])]
    exact ⟨_, rfl, rfl⟩

/-- Witness for C7: a closed breaker at 3 requests / 2 failures (ratio 2/3 ≥
0.6) trips to open on the failure result, and an open breaker with 20 ticks
of timeout left rejects a call. -/
theorem breaker_transitions_witness :
    (breakerAfterCall 30 ⟨BreakerState.closed, ⟨3, 1⟩, 0, false⟩ 0 false).state
      = BreakerState.opened ∧
    breakerBeforeCall ⟨BreakerState.opened, ⟨0, 0⟩, 30, false⟩ 10 = none := by
  constructor
  · exact ((breaker_transitions 30 ⟨BreakerState.closed, ⟨3, 1⟩, 0, false⟩ 0
      false).2.1 rfl).mpr (by decide)
  · exact ((breaker_transitions 30 ⟨BreakerState.opened, ⟨0, 0⟩, 30, false⟩ 10
      true).2.2.1 rfl).mpr (by norm_num)

end WeatherAgg
